import Mathlib

/-!
Shallow embedding of `src/ECommerceSystem.ts`.

Modelling conventions:
* TS `number` values used as money/weights become `ℚ`; quantities become `ℤ`
  (the TS code never restricts them to naturals).
* Product identity (TS object reference equality) becomes an index
  `ProductId : Nat` into the catalog list `List Product`; the catalog plus the
  customer form the mutable heap `St`.
* TS exceptions become `Except Err`; `checkout`, whose mutations are real
  heap writes in TS, returns the final heap together with the outcome, so an
  exception thrown after a mutation faithfully leaves the partial state.
* The wall-clock comparison `new Date() > this.expiryDate` of
  `ExpirableProduct.isExpired` is embedded as the boolean it evaluates to at
  the (single) instant of the call.
* `console.log` output is dropped (reporting only, no effect on state or
  results).
-/

namespace ECommerce

deriving instance DecidableEq for Except

inductive Err where
  | emptyCart
  | productExpired (pname : String)
  | insufficientStock (pname : String)
  | insufficientBalance
  | exceedsStock
  | missingProduct
deriving DecidableEq

/-- The variant of a product: `ExpirableProduct` (carrying the truth value of
`new Date() > expiryDate` at call time) or `NonExpirableProduct`. -/
inductive ProductKind where
  | expirable (expired : Bool)
  | nonExpirable
deriving DecidableEq

/-- `Product` of the source: name, price, stock quantity, plus the
variant-specific expiry information and shipping flag / weight (both concrete
subclasses carry `requiresShippingFlag` and `weight`). -/
structure Product where
  pname : String
  price : ℚ
  quantity : ℤ
  kind : ProductKind
  requiresShippingFlag : Bool
  weight : ℚ
deriving DecidableEq

def Product.isExpired (p : Product) : Bool :=
  match p.kind with
  | .expirable e => e
  | .nonExpirable => false

def Product.requiresShipping (p : Product) : Bool :=
  p.requiresShippingFlag

/-- `Product.reduceQuantity`: throws when `amount > this.quantity`, else
`this.quantity -= amount`. -/
def Product.reduceQuantity (p : Product) (amount : ℤ) : Except Err Product :=
  if amount > p.quantity then .error (.insufficientStock p.pname)
  else .ok { p with quantity := p.quantity - amount }

abbrev ProductId := Nat

/-- `CartItem`: a product reference (catalog index) and a quantity. -/
structure CartItem where
  productId : ProductId
  quantity : ℤ
deriving DecidableEq

/-- `CartItem.getTotalPrice`: `product.getPrice() * this.quantity`. -/
def CartItem.getTotalPrice (ps : List Product) (it : CartItem) : ℚ :=
  ((ps[it.productId]?).map Product.price).getD 0 * (it.quantity : ℚ)

structure Customer where
  cname : String
  balance : ℚ
deriving DecidableEq

/-- `Customer.deductBalance`: throws when `amount > this.balance`, else
`this.balance -= amount`. -/
def Customer.deductBalance (c : Customer) (amount : ℚ) : Except Err Customer :=
  if amount > c.balance then .error .insufficientBalance
  else .ok { c with balance := c.balance - amount }

structure Cart where
  items : List CartItem
deriving DecidableEq

def Cart.empty : Cart := ⟨[]⟩

/-- The `findIndex`-and-update part of `Cart.add`: walk the items, and at the
first item whose product reference equals `pid` merge the quantities
(re-checking the merged total against current stock); if no item matches,
push a new item at the end. -/
def addToItems (stock : ℤ) (pid : ProductId) (q : ℤ) :
    List CartItem → Except Err (List CartItem)
  | [] => .ok [⟨pid, q⟩]
  | it :: rest =>
    if it.productId = pid then
      if it.quantity + q > stock then .error .exceedsStock
      else .ok (⟨pid, it.quantity + q⟩ :: rest)
    else
      match addToItems stock pid q rest with
      | .error e => .error e
      | .ok rest2 => .ok (it :: rest2)

/-- `Cart.add(product, quantity)`: fails when `quantity > product.getQuantity()`,
then merges into an existing line for the same product (identity `pid`) or
pushes a new line.  The TS code mutates the items array only on success, so
returning `Except` without a cart on the error path is faithful. -/
def Cart.add (c : Cart) (p : Product) (pid : ProductId) (q : ℤ) :
    Except Err Cart :=
  if q > p.quantity then .error .exceedsStock
  else
    match addToItems p.quantity pid q c.items with
    | .error e => .error e
    | .ok items2 => .ok ⟨items2⟩

def Cart.isEmpty (c : Cart) : Bool :=
  c.items.length == 0

/-- `Cart.getSubtotal`: `items.reduce((sum, item) => sum + item.getTotalPrice(), 0)`. -/
def Cart.getSubtotal (ps : List Product) (c : Cart) : ℚ :=
  c.items.foldl (fun sum it => sum + it.getTotalPrice ps) 0

/-- First cart line whose product reference is `pid` (what `findIndex` locates). -/
def Cart.findLine (c : Cart) (pid : ProductId) : Option CartItem :=
  c.items.find? (fun it => it.productId == pid)

/-- `ShippableItem`: name and weight of one physical unit to ship. -/
structure ShippableItem where
  sname : String
  weight : ℚ
deriving DecidableEq

def SHIPPING_RATE_PER_KG : ℚ := 30

def totalWeight (items : List ShippableItem) : ℚ :=
  items.foldl (fun sum it => sum + it.weight) 0

/-- `ShippingService.calculateShippingFee`: `0` for an empty list, otherwise
`Math.ceil(totalWeight * SHIPPING_RATE_PER_KG)` (the shipment-notice printing
is reporting only). -/
def calculateShippingFee (items : List ShippableItem) : ℚ :=
  if items.length = 0 then 0
  else ((⌈totalWeight items * SHIPPING_RATE_PER_KG⌉ : ℤ) : ℚ)

/-- The validation loop of `checkout`: first line whose product is expired or
has `product.getQuantity() < item.getQuantity()` produces the error.  A
dangling product reference cannot arise in TS; it is mapped to
`Err.missingProduct`. -/
def validateItems (ps : List Product) : List CartItem → Option Err
  | [] => none
  | it :: rest =>
    match ps[it.productId]? with
    | none => some .missingProduct
    | some p =>
      if p.isExpired then some (.productExpired p.pname)
      else if p.quantity < it.quantity then some (.insufficientStock p.pname)
      else validateItems ps rest

/-- The shippable-collection loop of `checkout`: each line whose product
requires shipping contributes `item.getQuantity()` copies (zero when the
quantity is not positive, as in the TS `for` loop) of one unit carrying the
product's weight. -/
def collectShippables (ps : List Product) (items : List CartItem) :
    List ShippableItem :=
  items.flatMap (fun it =>
    match ps[it.productId]? with
    | none => []
    | some p =>
      if p.requiresShipping then
        List.replicate it.quantity.toNat ⟨p.pname, p.weight⟩
      else [])

/-- The commit loop of `checkout`: reduce each line's product stock in order;
a failing `reduceQuantity` aborts the loop and leaves the reductions already
made (faithful to TS in-place mutation). -/
def reduceAllStock : List CartItem → List Product → List Product × Option Err
  | [], ps => (ps, none)
  | it :: rest, ps =>
    match ps[it.productId]? with
    | none => (ps, some .missingProduct)
    | some p =>
      match p.reduceQuantity it.quantity with
      | .error e => (ps, some e)
      | .ok p2 => reduceAllStock rest (ps.set it.productId p2)

structure ReceiptLine where
  quantity : ℤ
  pname : String
  lineTotal : ℚ
deriving DecidableEq

/-- The values the receipt block of `checkout` prints (the underlying exact
values; display rounding is presentation). -/
structure Receipt where
  lines : List ReceiptLine
  subtotal : ℚ
  shippingFee : ℚ
  totalAmount : ℚ
  balanceAfter : ℚ
deriving DecidableEq

/-- The mutable heap: the shared catalog products and the customer. -/
structure St where
  products : List Product
  customer : Customer
deriving DecidableEq

/-- Default fallback name for an unreachable missing product reference. -/
def noName : String := ""

def productName (ps : List Product) (pid : ProductId) : String :=
  ((ps[pid]?).map Product.pname).getD noName

def receiptLines (ps : List Product) (items : List CartItem) : List ReceiptLine :=
  items.map (fun it => ⟨it.quantity, productName ps it.productId, it.getTotalPrice ps⟩)

/-- `ECommerceSystem.checkout`: empty check, line validation, subtotal,
shippable collection, fee, affordability check, debit, stock reduction,
receipt.  The returned heap is the final one on every path, including an
exception thrown after mutation. -/
def checkout (st : St) (cart : Cart) : St × Except Err Receipt :=
  if cart.isEmpty then (st, .error .emptyCart)
  else
    match validateItems st.products cart.items with
    | some e => (st, .error e)
    | none =>
      let subtotal := cart.getSubtotal st.products
      let units := collectShippables st.products cart.items
      let shippingFees := calculateShippingFee units
      let totalAmount := subtotal + shippingFees
      if st.customer.balance < totalAmount then (st, .error .insufficientBalance)
      else
        match st.customer.deductBalance totalAmount with
        | .error e => (st, .error e)
        | .ok cust2 =>
          match reduceAllStock cart.items st.products with
          | (ps2, some e) => (⟨ps2, cust2⟩, .error e)
          | (ps2, none) =>
            (⟨ps2, cust2⟩,
             .ok ⟨receiptLines st.products cart.items, subtotal, shippingFees,
                  totalAmount, cust2.balance⟩)

/-- A cart line that the validation loop of `checkout` accepts: its product
reference resolves, the product is not expired and has enough stock. -/
def lineOk (ps : List Product) (it : CartItem) : Prop :=
  ∃ p, ps[it.productId]? = some p ∧ p.isExpired = false ∧
    ¬ p.quantity < it.quantity

/-- Product A of the end-to-end scenario: price 100, stock 10, non-expiring,
no shipping. -/
def prodA : Product := ⟨"A", 100, 10, .nonExpirable, false, 0⟩

/-- Product B of the end-to-end scenario: price 150, stock 15, non-expiring,
requires shipping, weight 0.7 kg. -/
def prodB : Product := ⟨"B", 150, 15, .nonExpirable, true, 7/10⟩

def scenarioStart : St := ⟨[prodA, prodB], ⟨"John", 1000⟩⟩

def scenarioCart : Cart := ⟨[⟨0, 2⟩, ⟨1, 1⟩]⟩

def scenarioFinal : St :=
  ⟨[⟨"A", 100, 8, .nonExpirable, false, 0⟩,
    ⟨"B", 150, 14, .nonExpirable, true, 7/10⟩], ⟨"John", 629⟩⟩

def scenarioReceipt : Receipt :=
  ⟨[⟨2, "A", 200⟩, ⟨1, "B", 150⟩], 350, 21, 371, 629⟩

/-- A small product used to exhibit concrete behaviour of `Cart.add`. -/
def demoProduct : Product := ⟨"P", 2, 5, .nonExpirable, false, 0⟩

/-- An expired product used to exhibit the fail-fast order of `checkout`. -/
def expiredProduct : Product := ⟨"E", 1, 5, .expirable true, false, 0⟩

/-- Helper for evaluating two-element catalogs: index 0 of a pair list. -/
theorem pairGet0 {α : Type} (a b : α) : ([a, b] : List α)[0] = a := rfl

/-- Helper for evaluating two-element catalogs: index 1 of a pair list. -/
theorem pairGet1 {α : Type} (a b : α) : ([a, b] : List α)[1] = b := rfl

/-- Helper for evaluating two-element catalogs: optional index 0. -/
theorem pairGetOpt0 {α : Type} (a b : α) : ([a, b] : List α)[0]? = some a := rfl

/-- Helper for evaluating two-element catalogs: optional index 1. -/
theorem pairGetOpt1 {α : Type} (a b : α) : ([a, b] : List α)[1]? = some b := rfl

/-- Helper for evaluating two-element catalogs: updating index 0. -/
theorem pairSet0 {α : Type} (a b c : α) : ([a, b] : List α).set 0 c = [c, b] := rfl

/-- Helper for evaluating two-element catalogs: updating index 1. -/
theorem pairSet1 {α : Type} (a b c : α) : ([a, b] : List α).set 1 c = [a, c] := rfl

/-- Building the scenario cart through `Cart.add`. -/
theorem scenario_cart_built :
    (Cart.empty.add prodA 0 2).bind (fun c => c.add prodB 1 1) =
      .ok scenarioCart := by
  norm_num [Cart.empty, Cart.add, addToItems, prodA, prodB, scenarioCart,
    Except.bind]

/-- Full evaluation of `checkout` on the end-to-end scenario. -/
theorem scenario_checkout_eq :
    checkout scenarioStart scenarioCart = (scenarioFinal, .ok scenarioReceipt) := by
  norm_num [checkout, scenarioStart, scenarioCart, scenarioFinal,
    scenarioReceipt, prodA, prodB,
    Cart.isEmpty, validateItems, Product.isExpired, Cart.getSubtotal,
    CartItem.getTotalPrice, collectShippables, Product.requiresShipping,
    calculateShippingFee, totalWeight, SHIPPING_RATE_PER_KG,
    Customer.deductBalance, reduceAllStock, Product.reduceQuantity,
    receiptLines, productName, List.replicate, pairGet0, pairGet1,
    pairGetOpt0, pairGetOpt1, pairSet0, pairSet1, Int.toNat_ofNat]

/-- C2: in the end-to-end scenario (catalog `[A, B]` with A = price 100 /
stock 10 / non-expiring / no shipping and B = price 150 / stock 15 /
non-expiring / shipping / 0.7 kg; cart A×2, B×1 built through `Cart.add`;
balance 1000), checkout succeeds with subtotal 350, shipping fee
`⌈0.7 * 30⌉ = 21`, total 371, post-checkout balance 629, A.stock 8 and
B.stock 14. -/
theorem c2_end_to_end_scenario :
    (Cart.empty.add prodA 0 2).bind (fun c => c.add prodB 1 1) =
      .ok scenarioCart ∧
    checkout scenarioStart scenarioCart = (scenarioFinal, .ok scenarioReceipt) ∧
    scenarioReceipt.subtotal = 350 ∧
    scenarioReceipt.shippingFee = ((⌈(7/10 : ℚ) * 30⌉ : ℤ) : ℚ) ∧
    scenarioReceipt.shippingFee = 21 ∧
    scenarioReceipt.totalAmount = 371 ∧
    scenarioFinal.customer.balance = 629 ∧
    (scenarioFinal.products[0]?).map Product.quantity = some 8 ∧
    (scenarioFinal.products[1]?).map Product.quantity = some 14 := by
  refine ⟨scenario_cart_built, scenario_checkout_eq, rfl, ?_, rfl, rfl, rfl, rfl, rfl⟩
  norm_num [scenarioReceipt]

/-- C4: `calculateShippingFee` returns 0 on an empty list of shippable units
(no minimum charge), and on a non-empty list returns the ceiling of the
summed weight times the rate constant 30. -/
theorem c4_fee_empty_and_ceiling :
    calculateShippingFee [] = 0 ∧
    SHIPPING_RATE_PER_KG = 30 ∧
    ∀ units : List ShippableItem, units ≠ [] →
      calculateShippingFee units =
        ((⌈totalWeight units * SHIPPING_RATE_PER_KG⌉ : ℤ) : ℚ) := by
  refine ⟨rfl, rfl, ?_⟩
  intro units h
  simp [calculateShippingFee, List.length_eq_zero, h]

/-- Witness for C4 at the non-empty unit list of the scenario. -/
theorem c4_witness : calculateShippingFee [⟨"B", 7/10⟩] = 21 := by
  rw [c4_fee_empty_and_ceiling.2.2 [⟨"B", 7/10⟩] (by simp)]
  norm_num [totalWeight, SHIPPING_RATE_PER_KG]

/-- C6: `reduceQuantity` fails exactly when the amount exceeds current stock
and otherwise subtracts it, so a non-negative stock stays non-negative;
`deductBalance` fails exactly when the amount exceeds the balance and
otherwise subtracts it, so a non-negative balance stays non-negative. -/
theorem c6_nonneg_preserved (p : Product) (a : ℤ) (c : Customer) (b : ℚ) :
    ((p.quantity < a → p.reduceQuantity a = .error (.insufficientStock p.pname)) ∧
     (a ≤ p.quantity →
        p.reduceQuantity a = .ok { p with quantity := p.quantity - a }) ∧
     (0 ≤ p.quantity → ∀ p2, p.reduceQuantity a = .ok p2 → 0 ≤ p2.quantity)) ∧
    ((c.balance < b → c.deductBalance b = .error .insufficientBalance) ∧
     (b ≤ c.balance →
        c.deductBalance b = .ok { c with balance := c.balance - b }) ∧
     (0 ≤ c.balance → ∀ c2, c.deductBalance b = .ok c2 → 0 ≤ c2.balance)) := by
  constructor
  · refine ⟨?_, ?_, ?_⟩
    · intro h; simp [Product.reduceQuantity, h]
    · intro h; simp [Product.reduceQuantity, not_lt.mpr h]
    · intro _ p2 hok
      by_cases hc : p.quantity < a
      · simp [Product.reduceQuantity, hc] at hok
      · simp [Product.reduceQuantity, hc] at hok
        subst hok
        simpa using not_lt.mp hc
  · refine ⟨?_, ?_, ?_⟩
    · intro h; simp [Customer.deductBalance, h]
    · intro h; simp [Customer.deductBalance, not_lt.mpr h]
    · intro _ c2 hok
      by_cases hc : c.balance < b
      · simp [Customer.deductBalance, hc] at hok
      · simp [Customer.deductBalance, hc] at hok
        subst hok
        simpa using not_lt.mp hc

/-- Witness for C6: stock 5 reduced by 3 leaves 2; balance 10 cannot pay 20. -/
theorem c6_witness :
    demoProduct.reduceQuantity 3 =
      .ok ⟨"P", 2, 2, .nonExpirable, false, 0⟩ ∧
    Customer.deductBalance ⟨"c", 10⟩ 20 = .error .insufficientBalance := by
  constructor
  · have h := (c6_nonneg_preserved demoProduct 3 ⟨"c", 10⟩ 20).1.2.1
      (by norm_num [demoProduct])
    simpa [demoProduct] using h
  · have h := (c6_nonneg_preserved demoProduct 3 ⟨"c", 10⟩ 20).2.1
      (by norm_num)
    simpa using h

/-- C7: the shipping fee is monotonically non-decreasing in total weight, is
always an integer-valued amount, and is at least the exact (unrounded) fee
`totalWeight * SHIPPING_RATE_PER_KG`. -/
theorem c7_fee_monotone_and_bound :
    (∀ u1 u2 : List ShippableItem, totalWeight u1 ≤ totalWeight u2 →
       calculateShippingFee u1 ≤ calculateShippingFee u2) ∧
    (∀ u : List ShippableItem,
       (∃ n : ℤ, calculateShippingFee u = (n : ℚ)) ∧
       totalWeight u * SHIPPING_RATE_PER_KG ≤ calculateShippingFee u) := by
  have hw0 : ∀ u : List ShippableItem, u.length = 0 → totalWeight u = 0 := by
    intro u hu
    rw [List.length_eq_zero.mp hu]
    rfl
  constructor
  · intro u1 u2 h
    unfold calculateShippingFee
    split
    · split
      · exact le_refl 0
      · next h1 h2 =>
        have : (0 : ℚ) ≤ totalWeight u2 := by
          have := hw0 u1 h1
          linarith
        have : (0 : ℤ) ≤ ⌈totalWeight u2 * SHIPPING_RATE_PER_KG⌉ := by
          apply Int.ceil_nonneg
          have h30 : (0 : ℚ) ≤ SHIPPING_RATE_PER_KG := by norm_num [SHIPPING_RATE_PER_KG]
          exact mul_nonneg this h30
        exact_mod_cast this
    · split
      · next h1 h2 =>
        have : totalWeight u1 ≤ 0 := by
          have := hw0 u2 h2
          linarith
        have : ⌈totalWeight u1 * SHIPPING_RATE_PER_KG⌉ ≤ (0 : ℤ) := by
          apply Int.ceil_le.mpr
          rw [Int.cast_zero]
          have h30 : (0 : ℚ) ≤ SHIPPING_RATE_PER_KG := by norm_num [SHIPPING_RATE_PER_KG]
          exact mul_nonpos_of_nonpos_of_nonneg this h30
        exact_mod_cast this
      · have : ⌈totalWeight u1 * SHIPPING_RATE_PER_KG⌉ ≤
            ⌈totalWeight u2 * SHIPPING_RATE_PER_KG⌉ := by
          apply Int.ceil_le_ceil
          have h30 : (0 : ℚ) ≤ SHIPPING_RATE_PER_KG := by norm_num [SHIPPING_RATE_PER_KG]
          exact mul_le_mul_of_nonneg_right h h30
        exact_mod_cast this
  · intro u
    constructor
    · unfold calculateShippingFee
      split
      · exact ⟨0, by norm_num⟩
      · exact ⟨⌈totalWeight u * SHIPPING_RATE_PER_KG⌉, rfl⟩
    · unfold calculateShippingFee
      split
      · next h1 =>
        rw [hw0 u h1]
        norm_num
      · exact Int.le_ceil _

/-- Witness for C7: monotonicity applied to one-unit lists of weights 1 and 2. -/
theorem c7_witness :
    calculateShippingFee [⟨"a", 1⟩] ≤ calculateShippingFee [⟨"a", 2⟩] :=
  c7_fee_monotone_and_bound.1 [⟨"a", 1⟩] [⟨"a", 2⟩] (by norm_num [totalWeight])

/-- When no line references `pid`, the add loop pushes a fresh line at the end. -/
theorem addToItems_find_none (stock q : ℤ) (pid : ProductId) :
    ∀ items : List CartItem,
      items.find? (fun it => it.productId == pid) = none →
      addToItems stock pid q items = .ok (items ++ [⟨pid, q⟩]) := by
  intro items
  induction items with
  | nil => intro _; rfl
  | cons it rest ih =>
    intro h
    by_cases hpid : it.productId = pid
    · rw [List.find?_cons_of_pos rest (by simp [hpid])] at h
      simp at h
    · rw [List.find?_cons_of_neg rest (by simp [hpid])] at h
      simp [addToItems, hpid, ih h]

/-- When the first line referencing `pid` is `it1`, the add loop fails exactly
when the merged quantity exceeds the stock. -/
theorem addToItems_find_some (stock q : ℤ) (pid : ProductId) :
    ∀ (items : List CartItem) (it1 : CartItem),
      items.find? (fun it => it.productId == pid) = some it1 →
      (stock < it1.quantity + q →
         addToItems stock pid q items = .error .exceedsStock) ∧
      (it1.quantity + q ≤ stock →
         ∃ items2, addToItems stock pid q items = .ok items2) := by
  intro items
  induction items with
  | nil => intro it1 h; simp [List.find?] at h
  | cons it rest ih =>
    intro it1 h
    by_cases hpid : it.productId = pid
    · have hit : it1 = it := by
        rw [List.find?_cons_of_pos rest (by simp [hpid])] at h
        exact (Option.some.inj h).symm
      subst hit
      constructor
      · intro hgt
        simp [addToItems, hpid, hgt]
      · intro hle
        exact ⟨⟨pid, it1.quantity + q⟩ :: rest,
          by simp [addToItems, hpid, not_lt.mpr hle]⟩
    · rw [List.find?_cons_of_neg rest (by simp [hpid])] at h
      obtain ⟨h1, h2⟩ := ih it1 h
      constructor
      · intro hgt
        simp [addToItems, hpid, h1 hgt]
      · intro hle
        obtain ⟨items2, hi⟩ := h2 hle
        exact ⟨it :: items2, by simp [addToItems, hpid, hi]⟩

/-- The only error the add loop raises is `exceedsStock`. -/
theorem addToItems_error_eq (stock q : ℤ) (pid : ProductId) :
    ∀ items e, addToItems stock pid q items = .error e → e = .exceedsStock := by
  intro items
  induction items with
  | nil => intro e h; simp [addToItems] at h
  | cons it rest ih =>
    intro e h
    by_cases hpid : it.productId = pid
    · by_cases hm : stock < it.quantity + q
      · simp [addToItems, hpid, hm] at h
        exact h.symm
      · simp [addToItems, hpid, hm] at h
    · simp only [addToItems, hpid, if_false] at h
      cases hr : addToItems stock pid q rest with
      | error e2 =>
        rw [hr] at h
        simp at h
        exact h ▸ ih e2 hr
      | ok rest2 =>
        rw [hr] at h
        simp at h

/-- A successful add loop never returns an empty item list. -/
theorem addToItems_ok_ne_nil (stock q : ℤ) (pid : ProductId) :
    ∀ items items2, addToItems stock pid q items = .ok items2 → items2 ≠ [] := by
  intro items
  induction items with
  | nil =>
    intro items2 h
    simp [addToItems] at h
    simp [← h]
  | cons it rest ih =>
    intro items2 h
    by_cases hpid : it.productId = pid
    · by_cases hm : stock < it.quantity + q
      · simp [addToItems, hpid, hm] at h
      · simp [addToItems, hpid, hm] at h
        simp [← h]
    · simp only [addToItems, hpid, if_false] at h
      cases hr : addToItems stock pid q rest with
      | error e2 => rw [hr] at h; simp at h
      | ok rest2 =>
        rw [hr] at h
        simp at h
        simp [← h]

/-- C3: `Cart.add` fails with `exceedsStock` exactly when the fresh quantity
(line not present, matched by product identity `pid`) or the merged quantity
(line present, first match) exceeds the product's stock; failure raises only
`exceedsStock` and, the embedding being functional, leaves the cart as it
was; two successive adds of the same product with positive quantities
`q1, q2`, `q1 + q2 ≤ stock`, yield one line of quantity `q1 + q2` whose
subtotal is `price * (q1 + q2)`. -/
theorem c3_cart_add_spec (ps : List Product) (p : Product) (pid : ProductId)
    (q : ℤ) (c : Cart) (hp : ps[pid]? = some p) :
    (c.findLine pid = none →
       ((c.add p pid q = .error .exceedsStock ↔ p.quantity < q) ∧
        (q ≤ p.quantity → c.add p pid q = .ok ⟨c.items ++ [⟨pid, q⟩]⟩))) ∧
    (∀ it1, c.findLine pid = some it1 → 0 < it1.quantity →
       (c.add p pid q = .error .exceedsStock ↔ p.quantity < it1.quantity + q)) ∧
    (∀ e, c.add p pid q = .error e → e = .exceedsStock) ∧
    (∀ q1 q2 : ℤ, 0 < q1 → 0 < q2 → q1 + q2 ≤ p.quantity →
       Cart.empty.add p pid q1 = .ok ⟨[⟨pid, q1⟩]⟩ ∧
       Cart.add ⟨[⟨pid, q1⟩]⟩ p pid q2 = .ok ⟨[⟨pid, q1 + q2⟩]⟩ ∧
       Cart.getSubtotal ps ⟨[⟨pid, q1 + q2⟩]⟩ = p.price * ((q1 : ℚ) + (q2 : ℚ))) := by
  refine ⟨?_, ?_, ?_, ?_⟩
  · intro hfind
    constructor
    · constructor
      · intro herr
        by_contra hq
        have hadd := addToItems_find_none p.quantity q pid c.items hfind
        simp [Cart.add, not_lt.mp hq, hadd] at herr
      · intro hq
        simp [Cart.add, hq]
    · intro hq
      have hadd := addToItems_find_none p.quantity q pid c.items hfind
      simp [Cart.add, not_lt.mpr hq, hadd]
  · intro it1 hfind hpos
    obtain ⟨h1, h2⟩ := addToItems_find_some p.quantity q pid c.items it1 hfind
    constructor
    · intro herr
      by_contra hm
      obtain ⟨items2, hi⟩ := h2 (not_lt.mp hm)
      have hq : ¬ p.quantity < q := by
        intro hq
        exact hm (by linarith)
      simp [Cart.add, hq, hi] at herr
    · intro hm
      by_cases hq : p.quantity < q
      · simp [Cart.add, hq]
      · simp [Cart.add, hq, h1 hm]
  · intro e herr
    by_cases hq : p.quantity < q
    · simp [Cart.add, hq] at herr
      exact herr.symm
    · simp only [Cart.add, hq, if_false] at herr
      cases hr : addToItems p.quantity pid q c.items with
      | error e2 =>
        rw [hr] at herr
        simp at herr
        exact herr ▸ addToItems_error_eq p.quantity q pid c.items e2 hr
      | ok items2 =>
        rw [hr] at herr
        simp at herr
  · intro q1 q2 hq1 hq2 hsum
    refine ⟨?_, ?_, ?_⟩
    · have hq : ¬ p.quantity < q1 := by linarith
      simp [Cart.add, Cart.empty, hq, addToItems]
    · have hq : ¬ p.quantity < q2 := by linarith
      have hm : ¬ p.quantity < q1 + q2 := by linarith
      simp [Cart.add, hq, addToItems, hm]
    · simp [Cart.getSubtotal, CartItem.getTotalPrice, hp]

/-- Witness for C3: merging 4 then 3 units of the demo product (stock 5 is
too small, so stock 10 variant) yields one line of 7. -/
theorem c3_witness :
    Cart.empty.add demoProduct 0 4 = .ok ⟨[⟨0, 4⟩]⟩ ∧
    Cart.add ⟨[⟨0, 4⟩]⟩ demoProduct 0 1 = .ok ⟨[⟨0, 5⟩]⟩ := by
  have h := (c3_cart_add_spec [demoProduct] demoProduct 0 0 Cart.empty
    (by simp)).2.2.2 4 1 (by norm_num) (by norm_num) (by norm_num [demoProduct])
  refine ⟨h.1, ?_⟩
  have h2 := h.2.1
  norm_num at h2
  exact h2

/-- The validation pass succeeds exactly when every line is acceptable. -/
theorem validateItems_eq_none_iff (ps : List Product) :
    ∀ items : List CartItem,
      validateItems ps items = none ↔ ∀ it ∈ items, lineOk ps it := by
  intro items
  induction items with
  | nil => simp [validateItems]
  | cons it rest ih =>
    constructor
    · intro h jt hjt
      cases hps : ps[it.productId]? with
      | none => simp [validateItems, hps] at h
      | some p =>
        by_cases hexp : p.isExpired
        · simp [validateItems, hps, hexp] at h
        · by_cases hqty : p.quantity < it.quantity
          · simp [validateItems, hps, hexp, hqty] at h
          · have hrest : validateItems ps rest = none := by
              simpa [validateItems, hps, hexp, hqty] using h
            rcases List.mem_cons.mp hjt with rfl | hjt2
            · exact ⟨p, hps, by simpa using hexp, hqty⟩
            · exact (ih.mp hrest) jt hjt2
    · intro h
      obtain ⟨p, hps, hexp, hqty⟩ := h it (by simp)
      have hrest := ih.mpr (fun jt hjt => h jt (by simp [hjt]))
      simp [validateItems, hps, hexp, hqty, hrest]

/-- A prefix of acceptable lines does not affect the validation outcome. -/
theorem validateItems_append (ps : List Product) :
    ∀ pre rest : List CartItem, (∀ jt ∈ pre, lineOk ps jt) →
      validateItems ps (pre ++ rest) = validateItems ps rest := by
  intro pre
  induction pre with
  | nil => intro rest _; rfl
  | cons it pre2 ih =>
    intro rest h
    obtain ⟨p, hps, hexp, hqty⟩ := h it (by simp)
    have hr := ih rest (fun jt hjt => h jt (by simp [hjt]))
    simp [validateItems, hps, hexp, hqty, hr]

/-- Updating a product index not referenced by the items leaves validation
unchanged. -/
theorem validateItems_set_ne (ps : List Product) (pid : ProductId) (p2 : Product) :
    ∀ items : List CartItem, pid ∉ items.map CartItem.productId →
      validateItems (ps.set pid p2) items = validateItems ps items := by
  intro items
  induction items with
  | nil => intro _; rfl
  | cons it rest ih =>
    intro h
    simp only [List.map_cons, List.mem_cons] at h
    push_neg at h
    have hne : it.productId ≠ pid := fun hc => h.1 hc.symm
    have hget : (ps.set pid p2)[it.productId]? = ps[it.productId]? :=
      List.getElem?_set_ne (fun hc => hne hc.symm)
    simp only [validateItems, hget, ih h.2]

/-- The commit loop under the cart invariant (pairwise distinct product
references) after a passing validation: it never fails, keeps the catalog
length, leaves unreferenced products untouched and reduces every referenced
product's stock by the corresponding line quantity. -/
theorem reduceAllStock_spec :
    ∀ (items : List CartItem) (ps : List Product),
      (items.map CartItem.productId).Nodup →
      validateItems ps items = none →
      (reduceAllStock items ps).2 = none ∧
      (reduceAllStock items ps).1.length = ps.length ∧
      (∀ i : ℕ, i ∉ items.map CartItem.productId →
        (reduceAllStock items ps).1[i]? = ps[i]?) ∧
      (∀ it ∈ items, ∀ p, ps[it.productId]? = some p →
        (reduceAllStock items ps).1[it.productId]? =
          some { p with quantity := p.quantity - it.quantity }) := by
  intro items
  induction items with
  | nil =>
    intro ps _ _
    exact ⟨rfl, rfl, fun i _ => rfl, fun it h => absurd h (List.not_mem_nil it)⟩
  | cons it rest ih =>
    intro ps hnd hval
    cases hps : ps[it.productId]? with
    | none => simp [validateItems, hps] at hval
    | some p =>
      have hexp : p.isExpired = false := by
        by_cases hb : p.isExpired
        · simp [validateItems, hps, hb] at hval
        · simpa using hb
      have hqty : ¬ p.quantity < it.quantity := by
        by_cases hb : p.quantity < it.quantity
        · simp [validateItems, hps, hexp, hb] at hval
        · exact hb
      have hrest : validateItems ps rest = none := by
        simpa [validateItems, hps, hexp, hqty] using hval
      simp only [List.map_cons, List.nodup_cons] at hnd
      obtain ⟨hnotin, hnd2⟩ := hnd
      have hlen : it.productId < ps.length := (List.getElem?_eq_some.mp hps).1
      have hred : p.reduceQuantity it.quantity =
          .ok { p with quantity := p.quantity - it.quantity } := by
        simp [Product.reduceQuantity, hqty]
      have hunfold : reduceAllStock (it :: rest) ps =
          reduceAllStock rest
            (ps.set it.productId { p with quantity := p.quantity - it.quantity }) := by
        simp [reduceAllStock, hps, hred]
      have hvalset :
          validateItems
            (ps.set it.productId { p with quantity := p.quantity - it.quantity })
            rest = none := by
        rw [validateItems_set_ne ps it.productId _ rest hnotin]
        exact hrest
      obtain ⟨ih1, ih2, ih3, ih4⟩ :=
        ih (ps.set it.productId { p with quantity := p.quantity - it.quantity })
          hnd2 hvalset
      refine ⟨?_, ?_, ?_, ?_⟩
      · rw [hunfold]; exact ih1
      · rw [hunfold, ih2, List.length_set]
      · intro i hi
        simp only [List.map_cons, List.mem_cons] at hi
        push_neg at hi
        rw [hunfold, ih3 i hi.2]
        exact List.getElem?_set_ne (fun hc => hi.1 hc.symm)
      · intro jt hjt pj hpj
        rcases List.mem_cons.mp hjt with rfl | hjt2
        · have hpeq : pj = p := by
            rw [hps] at hpj
            exact (Option.some.inj hpj).symm
          subst hpeq
          rw [hunfold, ih3 jt.productId hnotin]
          exact List.getElem?_set_eq_of_lt _ hlen
        · have hne : jt.productId ≠ it.productId := by
            intro hc
            exact hnotin (hc ▸ List.mem_map_of_mem CartItem.productId hjt2)
          have hpj2 :
              (ps.set it.productId
                { p with quantity := p.quantity - it.quantity })[jt.productId]? =
                some pj := by
            rw [List.getElem?_set_ne (fun hc => hne hc.symm)]
            exact hpj
          rw [hunfold]
          exact ih4 jt hjt2 pj hpj2

/-- Evaluation of `checkout` once the empty check, the validation pass and the
affordability check have been settled: the debit succeeds and the outcome is
decided by the commit loop. -/
theorem checkout_commit_eq (st : St) (cart : Cart)
    (h1 : cart.isEmpty = false)
    (h2 : validateItems st.products cart.items = none)
    (h3 : ¬ st.customer.balance <
        cart.getSubtotal st.products +
          calculateShippingFee (collectShippables st.products cart.items)) :
    checkout st cart =
      (⟨(reduceAllStock cart.items st.products).1,
        ⟨st.customer.cname,
         st.customer.balance -
           (cart.getSubtotal st.products +
             calculateShippingFee (collectShippables st.products cart.items))⟩⟩,
       match (reduceAllStock cart.items st.products).2 with
       | some e => .error e
       | none =>
         .ok ⟨receiptLines st.products cart.items,
              cart.getSubtotal st.products,
              calculateShippingFee (collectShippables st.products cart.items),
              cart.getSubtotal st.products +
                calculateShippingFee (collectShippables st.products cart.items),
              st.customer.balance -
                (cart.getSubtotal st.products +
                  calculateShippingFee (collectShippables st.products cart.items))⟩) := by
  have hd : st.customer.deductBalance
      (cart.getSubtotal st.products +
        calculateShippingFee (collectShippables st.products cart.items)) =
      .ok ⟨st.customer.cname,
        st.customer.balance -
          (cart.getSubtotal st.products +
            calculateShippingFee (collectShippables st.products cart.items))⟩ := by
    simp [Customer.deductBalance, h3]
  rcases hre : reduceAllStock cart.items st.products with ⟨ps2, err2⟩
  cases err2 with
  | some e => simp [checkout, h1, h2, h3, hd, hre]
  | none => simp [checkout, h1, h2, h3, hd, hre]

/-- C1: under the cart invariant (pairwise distinct product references per
line), every failing checkout — in particular each of the pre-commit failures
`emptyCart`, `productExpired`, `insufficientStock`, `insufficientBalance` —
leaves the heap (customer balance and every product stock) exactly as it was. -/
theorem c1_pre_commit_failure_keeps_state (st : St) (cart : Cart) (e : Err)
    (hnd : (cart.items.map CartItem.productId).Nodup)
    (h : (checkout st cart).2 = .error e) :
    (checkout st cart).1 = st := by
  by_cases h1 : cart.isEmpty
  · simp [checkout, h1]
  · rw [Bool.not_eq_true] at h1
    cases h2 : validateItems st.products cart.items with
    | some e2 => simp [checkout, h1, h2]
    | none =>
      by_cases h3 : st.customer.balance <
          cart.getSubtotal st.products +
            calculateShippingFee (collectShippables st.products cart.items)
      · simp [checkout, h1, h2, h3]
      · exfalso
        have hspec := reduceAllStock_spec cart.items st.products hnd h2
        rw [checkout_commit_eq st cart h1 h2 h3] at h
        rw [hspec.1] at h
        simp at h

/-- Witness for C1: a checkout failing on an empty cart leaves the heap
unchanged. -/
theorem c1_witness :
    (checkout ⟨[demoProduct], ⟨"c", 7⟩⟩ Cart.empty).1 = ⟨[demoProduct], ⟨"c", 7⟩⟩ :=
  c1_pre_commit_failure_keeps_state ⟨[demoProduct], ⟨"c", 7⟩⟩ Cart.empty
    .emptyCart (by simp [Cart.empty]) (by simp [checkout, Cart.empty, Cart.isEmpty])

/-- C5: checkout checks fail-fast in a fixed order — `emptyCart` before
anything else; then, walking the lines in cart order, for the first offending
line `productExpired` (expiry checked before that line's stock) or
`insufficientStock`; the affordability check fires only after every line
validates. -/
theorem c5_fail_fast_order (st : St) (cart : Cart) :
    (cart.isEmpty = true → checkout st cart = (st, .error .emptyCart)) ∧
    (∀ pre it post p, cart.items = pre ++ it :: post →
       (∀ jt ∈ pre, lineOk st.products jt) →
       st.products[it.productId]? = some p →
       ((p.isExpired = true →
           checkout st cart = (st, .error (.productExpired p.pname))) ∧
        (p.isExpired = false → p.quantity < it.quantity →
           checkout st cart = (st, .error (.insufficientStock p.pname))))) ∧
    ((∀ jt ∈ cart.items, lineOk st.products jt) →
     cart.isEmpty = false →
     st.customer.balance <
       cart.getSubtotal st.products +
         calculateShippingFee (collectShippables st.products cart.items) →
     checkout st cart = (st, .error .insufficientBalance)) := by
  refine ⟨?_, ?_, ?_⟩
  · intro h1
    simp [checkout, h1]
  · intro pre it post p hitems hpre hp
    have hempty : cart.isEmpty = false := by
      rw [Cart.isEmpty, beq_eq_false_iff_ne, hitems]
      simp
    constructor
    · intro hexp
      have hval : validateItems st.products cart.items =
          some (.productExpired p.pname) := by
        rw [hitems, validateItems_append st.products pre (it :: post) hpre]
        simp [validateItems, hp, hexp]
      simp [checkout, hempty, hval]
    · intro hexp hqty
      have hval : validateItems st.products cart.items =
          some (.insufficientStock p.pname) := by
        rw [hitems, validateItems_append st.products pre (it :: post) hpre]
        simp [validateItems, hp, hexp, hqty]
      simp [checkout, hempty, hval]
  · intro hall hempty h3
    have hval : validateItems st.products cart.items = none :=
      (validateItems_eq_none_iff st.products cart.items).mpr hall
    simp [checkout, hempty, hval, h3]

/-- Witness for C5: a one-line cart with an expired product fails with
`productExpired` and no mutation. -/
theorem c5_witness :
    checkout ⟨[expiredProduct], ⟨"c", 100⟩⟩ ⟨[⟨0, 1⟩]⟩ =
      (⟨[expiredProduct], ⟨"c", 100⟩⟩,
       .error (.productExpired expiredProduct.pname)) := by
  exact ((c5_fail_fast_order ⟨[expiredProduct], ⟨"c", 100⟩⟩ ⟨[⟨0, 1⟩]⟩).2.1
    [] ⟨0, 1⟩ [] expiredProduct rfl (by simp) rfl).1
    (by simp [expiredProduct, Product.isExpired])

/-- C8: a successful checkout returns a receipt carrying, per cart line, the
quantity, product name and line total, plus the subtotal, shipping fee, total
amount (their sum) and the customer's post-debit balance. -/
theorem c8_receipt_contents (st : St) (cart : Cart) (st2 : St) (r : Receipt)
    (h : checkout st cart = (st2, .ok r)) :
    r.lines = cart.items.map (fun it =>
      ⟨it.quantity, productName st.products it.productId,
        it.getTotalPrice st.products⟩) ∧
    r.subtotal = cart.getSubtotal st.products ∧
    r.shippingFee = calculateShippingFee (collectShippables st.products cart.items) ∧
    r.totalAmount = r.subtotal + r.shippingFee ∧
    r.balanceAfter = st2.customer.balance ∧
    r.balanceAfter = st.customer.balance - r.totalAmount := by
  by_cases h1 : cart.isEmpty
  · simp [checkout, h1] at h
  · rw [Bool.not_eq_true] at h1
    cases h2 : validateItems st.products cart.items with
    | some e2 => simp [checkout, h1, h2] at h
    | none =>
      by_cases h3 : st.customer.balance <
          cart.getSubtotal st.products +
            calculateShippingFee (collectShippables st.products cart.items)
      · simp [checkout, h1, h2, h3] at h
      · rw [checkout_commit_eq st cart h1 h2 h3] at h
        cases herr : (reduceAllStock cart.items st.products).2 with
        | some e => rw [herr] at h; simp at h
        | none =>
          rw [herr] at h
          simp only [Prod.mk.injEq, Except.ok.injEq] at h
          obtain ⟨hst2, hr⟩ := h
          subst hst2
          subst hr
          exact ⟨rfl, rfl, rfl, rfl, rfl, rfl⟩

/-- Witness for C8 on the end-to-end scenario. -/
theorem c8_witness :
    scenarioReceipt.totalAmount =
      scenarioReceipt.subtotal + scenarioReceipt.shippingFee ∧
    scenarioReceipt.balanceAfter = scenarioFinal.customer.balance := by
  have h := c8_receipt_contents scenarioStart scenarioCart scenarioFinal
    scenarioReceipt scenario_checkout_eq
  exact ⟨h.2.2.2.1, h.2.2.2.2.1⟩

/-- C10: under the cart invariant, a successful checkout changes only the
customer's balance (debited by exactly subtotal + shipping fee) and the stock
of the products referenced by cart lines (each reduced by that line's
quantity); the customer's name, every unreferenced product, and every
product's name and price are unchanged. -/
theorem c10_success_frame (st : St) (cart : Cart) (st2 : St) (r : Receipt)
    (hnd : (cart.items.map CartItem.productId).Nodup)
    (h : checkout st cart = (st2, .ok r)) :
    st2.customer.cname = st.customer.cname ∧
    st2.customer.balance =
      st.customer.balance -
        (cart.getSubtotal st.products +
          calculateShippingFee (collectShippables st.products cart.items)) ∧
    st2.products.length = st.products.length ∧
    (∀ it ∈ cart.items, ∀ p, st.products[it.productId]? = some p →
      st2.products[it.productId]? =
        some { p with quantity := p.quantity - it.quantity }) ∧
    (∀ i : ℕ, i ∉ cart.items.map CartItem.productId →
      st2.products[i]? = st.products[i]?) ∧
    (∀ i : ℕ,
      (st2.products[i]?).map Product.pname = (st.products[i]?).map Product.pname ∧
      (st2.products[i]?).map Product.price = (st.products[i]?).map Product.price) := by
  by_cases h1 : cart.isEmpty
  · simp [checkout, h1] at h
  · rw [Bool.not_eq_true] at h1
    cases h2 : validateItems st.products cart.items with
    | some e2 => simp [checkout, h1, h2] at h
    | none =>
      by_cases h3 : st.customer.balance <
          cart.getSubtotal st.products +
            calculateShippingFee (collectShippables st.products cart.items)
      · simp [checkout, h1, h2, h3] at h
      · have hspec := reduceAllStock_spec cart.items st.products hnd h2
        rw [checkout_commit_eq st cart h1 h2 h3] at h
        rw [hspec.1] at h
        simp only [Prod.mk.injEq, Except.ok.injEq] at h
        obtain ⟨hst2, hr⟩ := h
        subst hst2
        refine ⟨rfl, rfl, hspec.2.1, hspec.2.2.2, hspec.2.2.1, ?_⟩
        intro i
        by_cases hi : i ∈ cart.items.map CartItem.productId
        · obtain ⟨it, hit, hpid⟩ := List.mem_map.mp hi
          subst hpid
          obtain ⟨p, hp, _, _⟩ :=
            (validateItems_eq_none_iff st.products cart.items).mp h2 it hit
          have hset := hspec.2.2.2 it hit p hp
          rw [hset, hp]
          exact ⟨rfl, rfl⟩
        · rw [hspec.2.2.1 i hi]
          exact ⟨rfl, rfl⟩

/-- Witness for C10 on the end-to-end scenario. -/
theorem c10_witness :
    scenarioFinal.customer.cname = scenarioStart.customer.cname ∧
    scenarioFinal.products.length = scenarioStart.products.length := by
  have h := c10_success_frame scenarioStart scenarioCart scenarioFinal
    scenarioReceipt (by simp [scenarioCart]) scenario_checkout_eq
  exact ⟨h.1, h.2.2.1⟩

/-- The validation loop never produces `emptyCart`. -/
theorem validateItems_some_ne (ps : List Product) :
    ∀ items e, validateItems ps items = some e → e ≠ .emptyCart := by
  intro items
  induction items with
  | nil => intro e h; simp [validateItems] at h
  | cons it rest ih =>
    intro e h
    cases hps : ps[it.productId]? with
    | none =>
      simp [validateItems, hps] at h
      simp [← h]
    | some p =>
      by_cases hexp : p.isExpired
      · simp [validateItems, hps, hexp] at h
        simp [← h]
      · by_cases hqty : p.quantity < it.quantity
        · simp [validateItems, hps, hexp, hqty] at h
          simp [← h]
        · simp [validateItems, hps, hexp, hqty] at h
          exact ih e h

/-- The commit loop never produces `emptyCart`. -/
theorem reduceAllStock_err_ne :
    ∀ (items : List CartItem) (ps : List Product) (e : Err),
      (reduceAllStock items ps).2 = some e → e ≠ .emptyCart := by
  intro items
  induction items with
  | nil => intro ps e h; simp [reduceAllStock] at h
  | cons it rest ih =>
    intro ps e h
    cases hps : ps[it.productId]? with
    | none =>
      simp [reduceAllStock, hps] at h
      simp [← h]
    | some p =>
      by_cases hq : p.quantity < it.quantity
      · have hr : p.reduceQuantity it.quantity =
            .error (.insufficientStock p.pname) := by
          simp [Product.reduceQuantity, hq]
        simp [reduceAllStock, hps, hr] at h
        simp [← h]
      · have hr : p.reduceQuantity it.quantity =
            .ok { p with quantity := p.quantity - it.quantity } := by
          simp [Product.reduceQuantity, hq]
        simp only [reduceAllStock, hps, hr] at h
        exact ih _ e h

/-- A checkout on a non-empty cart never fails with `emptyCart`. -/
theorem checkout_ne_emptyCart (st : St) (c : Cart) (h : c.isEmpty = false) :
    (checkout st c).2 ≠ .error .emptyCart := by
  cases h2 : validateItems st.products c.items with
  | some e =>
    simp [checkout, h, h2]
    exact validateItems_some_ne st.products c.items e h2
  | none =>
    by_cases h3 : st.customer.balance <
        c.getSubtotal st.products +
          calculateShippingFee (collectShippables st.products c.items)
    · simp [checkout, h, h2, h3]
    · rw [checkout_commit_eq st c h h2 h3]
      cases herr : (reduceAllStock c.items st.products).2 with
      | some e =>
        simp [herr]
        exact reduceAllStock_err_ne c.items st.products e herr
      | none => simp [herr]

/-- C9 as stated is false: with the demo product (stock 5) already in the cart
with quantity 5, adding quantity 1 — which satisfies `1 ≤ stockQuantity` — is
rejected with `exceedsStock` because the merged quantity exceeds the stock. -/
theorem c9_counterexample :
    (1 : ℤ) ≤ demoProduct.quantity ∧
    Cart.empty.add demoProduct 0 5 = .ok ⟨[⟨0, 5⟩]⟩ ∧
    Cart.add ⟨[⟨0, 5⟩]⟩ demoProduct 0 1 = .error .exceedsStock := by
  refine ⟨by norm_num [demoProduct], ?_, ?_⟩
  · norm_num [Cart.add, Cart.empty, addToItems, demoProduct]
  · norm_num [Cart.add, addToItems, demoProduct]

/-- C9 (amended): `Cart.add` enforces no positivity on the quantity: whenever
`q ≤ stockQuantity` — including `q = 0` and negative `q` — and the product is
not yet in the cart (or it is, and the merged quantity also stays within
stock), the add succeeds and inserts (or merges into) a line carrying that
(merged) quantity, so the resulting cart is non-empty and passes checkout's
`emptyCart` check. -/
theorem c9_add_no_positivity_check (p : Product) (pid : ProductId) (q : ℤ)
    (c : Cart) (hq : q ≤ p.quantity) :
    (c.findLine pid = none →
       c.add p pid q = .ok ⟨c.items ++ [⟨pid, q⟩]⟩ ∧
       Cart.isEmpty ⟨c.items ++ [⟨pid, q⟩]⟩ = false ∧
       ∀ st : St, (checkout st ⟨c.items ++ [⟨pid, q⟩]⟩).2 ≠ .error .emptyCart) ∧
    (∀ it1, c.findLine pid = some it1 → it1.quantity + q ≤ p.quantity →
       ∃ c2 : Cart, c.add p pid q = .ok c2 ∧ c2.isEmpty = false ∧
         ∀ st : St, (checkout st c2).2 ≠ .error .emptyCart) := by
  constructor
  · intro hfind
    have hadd := addToItems_find_none p.quantity q pid c.items hfind
    have hok : c.add p pid q = .ok ⟨c.items ++ [⟨pid, q⟩]⟩ := by
      simp [Cart.add, not_lt.mpr hq, hadd]
    have hempty : Cart.isEmpty ⟨c.items ++ [⟨pid, q⟩]⟩ = false := by
      rw [Cart.isEmpty, beq_eq_false_iff_ne]
      simp
    exact ⟨hok, hempty, fun st => checkout_ne_emptyCart st _ hempty⟩
  · intro it1 hfind hm
    obtain ⟨_, h2⟩ := addToItems_find_some p.quantity q pid c.items it1 hfind
    obtain ⟨items2, hi⟩ := h2 hm
    have hne := addToItems_ok_ne_nil p.quantity q pid c.items items2 hi
    have hempty : Cart.isEmpty ⟨items2⟩ = false := by
      rw [Cart.isEmpty, beq_eq_false_iff_ne]
      exact fun hc => hne (List.length_eq_zero.mp hc)
    refine ⟨⟨items2⟩, ?_, hempty, fun st => checkout_ne_emptyCart st _ hempty⟩
    simp [Cart.add, not_lt.mpr hq, hi]

/-- Witness for C9 (amended): adding quantity 0 succeeds and the resulting
cart is not empty. -/
theorem c9_witness :
    Cart.empty.add demoProduct 0 0 = .ok ⟨[⟨0, 0⟩]⟩ ∧
    Cart.isEmpty ⟨[⟨0, 0⟩]⟩ = false := by
  have h := (c9_add_no_positivity_check demoProduct 0 0 Cart.empty
    (by norm_num [demoProduct])).1 rfl
  exact ⟨by simpa [Cart.empty] using h.1, by simpa [Cart.empty] using h.2.1⟩

end ECommerce
